import Mathlib

/-!
Shallow embedding of the Seal-PRO converter core (`converter_core.py`,
class `SealCheckConverterCore`) and proofs about its specification.

Cell values of a worksheet are modelled by `CellValue`: a cell is empty
(`none`), holds a string, holds a number (floats only matter through the
NaN and zero checks, so one integer constructor suffices for the logic),
or holds the float NaN.  Python string operations (`strip`, `upper`,
`str`, `zfill`, substring membership, `split('/')[0]`) are modelled by
executable functions on Lean strings viewed as lists of characters.
-/

inductive CellValue where
  | none
  | str (s : String)
  | int (n : Int)
  | nan
deriving DecidableEq, Repr

/-- Python truthiness of a cell value (`if cell_value:`).  `None`, `""` and
`0` are falsy; NaN is truthy. -/
def pyTruthy : CellValue → Bool
  | .none => false
  | .str s => s ≠ ""
  | .int n => n ≠ 0
  | .nan => true

/-- Python `str(...)` applied to a cell value. -/
def pyStr : CellValue → String
  | .none => "None"
  | .str s => s
  | .int n => toString n
  | .nan => "nan"

/-- The whitespace characters stripped by Python `str.strip()`. -/
def isPySpace (c : Char) : Bool :=
  c = ' ' || c = '\t' || c = '\n' || c = '\r' || c = '\x0b' || c = '\x0c'

def trimLeftList (l : List Char) : List Char := l.dropWhile isPySpace

def trimRightList (l : List Char) : List Char :=
  (l.reverse.dropWhile isPySpace).reverse

/-- Python `str.strip()`. -/
def pyStrip (s : String) : String := String.mk (trimRightList (trimLeftList s.toList))

/-- Python `str.upper()` (ASCII, which covers all header and value strings
the converter compares). -/
def pyUpper (s : String) : String := String.mk (s.toList.map Char.toUpper)

/-- Python substring membership `needle in hay`. -/
def listInfix (needle : List Char) : List Char → Bool
  | [] => needle.isEmpty
  | c :: t => needle.isPrefixOf (c :: t) || listInfix needle t

def pyInSub (needle hay : String) : Bool := listInfix needle.toList hay.toList

/-- Python `s.split('/')[0]`: the part of `s` before the first `'/'`. -/
def pySplitSlashHead (s : String) : String :=
  String.mk (s.toList.takeWhile (· ≠ '/'))

/-- Python `s.zfill(width)`. -/
def pyZfill (width : Nat) (s : String) : String :=
  let l := s.toList
  if width ≤ l.length then s
  else
    match l with
    | c :: t =>
        if c = '+' || c = '-' then
          String.mk (c :: (List.replicate (width - (t.length + 1)) '0' ++ t))
        else String.mk (List.replicate (width - l.length) '0' ++ l)
    | [] => String.mk (List.replicate width '0')

/-- `SealCheckConverterCore.get_non_empty_value`: return the cell value only
if it is not "empty-like".  Strings are stripped first; a stripped string
whose upper-case form is `""`, `"NAN"`, the placeholder dash string or
`"0"` is empty-like, as are `None`, float NaN and the number `0`. -/
def get_non_empty_value : CellValue → Option CellValue
  | .none => Option.none
  | .nan => Option.none
  | .str s0 =>
      let s := pyStrip s0
      if (["", "NAN", ",----------------------", "0"] : List String).contains (pyUpper s)
      then Option.none
      else Option.some (.str s)
  | .int n => if n = 0 then Option.none else Option.some (.int n)

/-- A worksheet: an ordered grid of cells, addressed 1-based; reading a cell
outside the stored grid yields an empty cell, as openpyxl yields `None`. -/
structure Worksheet where
  rows : List (List CellValue)
deriving DecidableEq, Repr

def Worksheet.rowAt (ws : Worksheet) (r : Nat) : List CellValue :=
  ws.rows.getD (r - 1) []

def Worksheet.cellAt (ws : Worksheet) (r c : Nat) : CellValue :=
  (ws.rowAt r).getD (c - 1) CellValue.none

def Worksheet.maxRow (ws : Worksheet) : Nat := ws.rows.length

inductive FileFormat where
  | GATE_IN
  | LISTADO
  | RODMAN
  | RODMAN_CONVERTED
  | UNITLIST
  | COLON_YARD
  | PISCO
  | LIST_OF_UNIT
deriving DecidableEq, Repr

/-- Membership of a literal string among the header cells, as Python tests
`'Name' in headers` with `==` (exact, not trimmed, not case-folded). -/
def containsCell (headers : List CellValue) (s : String) : Bool :=
  headers.contains (CellValue.str s)

/-- `SealCheckConverterCore.detect_file_format`: returns the detected
format, the header row cells used for column lookup, and the first data
row.  Branches are evaluated in the source's fixed priority order. -/
def detect_file_format (ws : Worksheet) : FileFormat × List CellValue × Nat :=
  let headers_row1 := ws.rowAt 1
  let headers_row3 := ws.rowAt 3
  if (["CtrNbr", "POR", "SzTp"] : List String).all (containsCell headers_row1) then
    (.PISCO, headers_row1, 2)
  else if (["UNIT", "SIZE", "POL", "POD", "SEAL"] : List String).all (containsCell headers_row1) then
    (.LIST_OF_UNIT, headers_row1, 2)
  else if containsCell headers_row1 "Voyage In" || containsCell headers_row1 "Voyage Out" then
    (.UNITLIST, headers_row1, 2)
  else if containsCell headers_row1 "Current LOC Block" || containsCell headers_row1 "Current LOC Bay" then
    (.COLON_YARD, headers_row1, 9)
  else if headers_row1.any (fun h => pyTruthy h && pyInSub "Slot (Yard)" (pyStr h)) then
    if headers_row1.getD 0 CellValue.none = CellValue.str "Container" then
      (.RODMAN_CONVERTED, headers_row1, 2)
    else (.RODMAN, headers_row1, 2)
  else if headers_row3.any (fun h => pyTruthy h && pyInSub "CONTENEDOR" (pyUpper (pyStr h))) then
    (.LISTADO, headers_row3, 4)
  else (.GATE_IN, headers_row1, 2)

/-- `SealCheckConverterCore.find_column_index`: 1-based index of the first
header cell whose trimmed upper-case string form equals the upper-case
column name; `none` when absent. -/
def find_column_index (headers : List CellValue) (column_name : String) : Option Nat :=
  ((List.enumFrom 1 headers).find?
    (fun p => pyTruthy p.2 && (pyUpper (pyStrip (pyStr p.2)) == pyUpper column_name))).map (·.1)

/-- The per-format direct column mappings of `convert` (source column name →
template field name, `none` meaning the column is read only for filtering),
in the source's dictionary order. -/
def direct_mappings : FileFormat → List (String × Option String)
  | .RODMAN | .RODMAN_CONVERTED =>
      [("Unit", some "Container"), ("Container", some "Container"),
       ("POL", some "POL"), ("POD", some "POD"),
       ("ISO", some "Type"), ("Type", some "Type"),
       ("Slot (Yard)", some "Slot"), ("Slot", some "Slot")]
  | .PISCO =>
      [("CtrNbr", some "Container"), ("POR", some "POL"),
       ("POD", some "POD"), ("SzTp", some "Type")]
  | .UNITLIST =>
      [("Unit", some "Container"), ("POL", some "POL"),
       ("SPOD", some "POD"), ("ISO", some "Type"),
       ("Slot (EXE)", some "Slot"),
       ("Voyage In", Option.none), ("Voyage Out", Option.none)]
  | .COLON_YARD =>
      [("Container No", some "Container"), ("POL", some "POL"),
       ("POD", some "POD"), ("ISO Type", some "Type"),
       ("Dept Carrier", Option.none), ("Carrier", Option.none)]
  | .LIST_OF_UNIT =>
      [("UNIT", some "Container"), ("SIZE", some "Type"),
       ("POL", some "POL"), ("POD", some "POD")]
  | .LISTADO =>
      [("CONTENEDOR", some "Container"),
       ("POT (PUERTO DE DESCARGA)", some "POL"),
       ("POD (PUERTO DE DESTINO FINAL)", some "POD"),
       ("POD (PUERTO FINAL)", some "POD"),
       ("SIZE", some "Type")]
  | .GATE_IN =>
      [("CONTENEDOR", some "Container"),
       ("PortLoad", some "POL"),
       ("POD (PUERTO DE DESTINO FINAL)", some "POD"),
       ("POD (PUERTO FINAL)", some "POD"),
       ("SIZE", some "Type")]

/-- The seal-bearing columns shared by the LISTADO and GATE_IN formats. -/
def gateInSealColumns : List String :=
  ["NAVIERO",
   "Seal 2(shipping)", "SEAL 2",
   "Seal EL (shipping)", "SELLO CABLE (EL)",
   "OTHER SEAL (shipping)", "SEAL4 (XZ)", "SEAL 5 (DL)",
   "SEAL 6", "SEAL 7", "SEAL 8", "SEAL 9", "SEAL 10",
   "Seal (PAN)", "SelloPAN",
   "Seal (AFORO)", "Sello AFORO", "AFORO",
   "Seal (2)", "Sello2",
   "Other Seal New",
   "Naviero", "Sello3", "Sello4", "Sello5", "Sello"]

/-- The synthetic seal column keys of the LIST_OF_UNIT format: one
`SEAL_COL_<i>` key per header cell literally named `SEAL` (1-based). -/
def listOfUnitSealKeys (headers : List CellValue) : List String :=
  (List.enumFrom 1 headers).filterMap
    (fun p => if pyTruthy p.2 && (pyUpper (pyStr p.2) == "SEAL")
              then some ("SEAL_COL_" ++ toString p.1) else Option.none)

/-- The per-format seal column lists of `convert`. -/
def seal_columns (f : FileFormat) (headers : List CellValue) : List String :=
  match f with
  | .RODMAN | .RODMAN_CONVERTED =>
      ["Seal 1 / type / origin", "Seal 2 / type / origin", "Seal 3 / type / origin",
       "Seal 1", "Seal 2", "Seal 3"]
  | .PISCO => ["Carrier Seal"]
  | .UNITLIST =>
      ["Seal 1 / type / origin", "Seal 2 / type / origin", "Seal 3 / type / origin"]
  | .COLON_YARD => ["Seal No. 1"]
  | .LIST_OF_UNIT => listOfUnitSealKeys headers
  | .LISTADO => gateInSealColumns
  | .GATE_IN => gateInSealColumns

/-- Lookup in the column index map (a Python dict with unique keys,
modelled as an association list). -/
def lookupIdx (m : List (String × Nat)) (k : String) : Option Nat :=
  (m.find? (fun p => p.1 == k)).map (·.2)

/-- The slot component columns of the COLON YARD format. -/
def colonSlotColumns : List String :=
  ["Current LOC Block", "Current LOC Bay", "Current LOC Row", "Current LOC Tier"]

/-- The list of column names to look up for a run: direct-mapping keys plus
seal columns, extended with the slot component columns for COLON YARD,
with LIST_OF_UNIT's synthetic `SEAL_COL_` placeholders removed. -/
def columns_to_find (f : FileFormat) (headers : List CellValue) : List String :=
  let base := (direct_mappings f).map (·.1) ++ seal_columns f headers
  let base := if f = .COLON_YARD then base ++ colonSlotColumns else base
  if f = .LIST_OF_UNIT then
    base.filter (fun c => !("SEAL_COL_".toList.isPrefixOf c.toList))
  else base

/-- `source_col_indices`: for LIST_OF_UNIT the synthetic `SEAL_COL_<i>`
entries are inserted first, then every name in `columns_to_find` that
`find_column_index` locates. -/
def build_col_indices (f : FileFormat) (headers : List CellValue) : List (String × Nat) :=
  let init : List (String × Nat) :=
    if f = .LIST_OF_UNIT then
      (List.enumFrom 1 headers).filterMap
        (fun p => if pyTruthy p.2 && (pyUpper (pyStr p.2) == "SEAL")
                  then some ("SEAL_COL_" ++ toString p.1, p.1) else Option.none)
    else []
  (columns_to_find f headers).foldl
    (fun m col_name =>
      match find_column_index headers col_name with
      | some idx => m ++ [(col_name, idx)]
      | Option.none => m) init

/-- The container column name for the detected format. -/
def container_col_name (f : FileFormat) (idx : List (String × Nat)) : String :=
  match f with
  | .RODMAN | .RODMAN_CONVERTED =>
      if (lookupIdx idx "Unit").isSome then "Unit" else "Container"
  | .UNITLIST => "Unit"
  | .PISCO => "CtrNbr"
  | .LIST_OF_UNIT => "UNIT"
  | .COLON_YARD => "Container No"
  | _ => "CONTENEDOR"

/-- Python truthiness of an optional filter list argument. -/
def truthyFilters : Option (List String) → Bool
  | Option.none => false
  | some l => !l.isEmpty

/-- The fixed template output columns: Container, POL, POD, Type, Slot,
Seal 1..Seal 5.  An output row records the cells written into the
template for one accepted source row (`none` = never written). -/
structure OutRow where
  container : Option CellValue := Option.none
  pol : Option CellValue := Option.none
  pod : Option CellValue := Option.none
  type : Option CellValue := Option.none
  slot : Option CellValue := Option.none
  seal1 : Option CellValue := Option.none
  seal2 : Option CellValue := Option.none
  seal3 : Option CellValue := Option.none
  seal4 : Option CellValue := Option.none
  seal5 : Option CellValue := Option.none
deriving DecidableEq, Repr

def emptyOut : OutRow := {}

/-- Writing a value into the template column named `t`
(`ws_template.cell(row=output_row, column=template_cols[t]).value = v`). -/
def OutRow.setField (o : OutRow) (t : String) (v : CellValue) : OutRow :=
  if t == "Container" then { o with container := some v }
  else if t == "POL" then { o with pol := some v }
  else if t == "POD" then { o with pod := some v }
  else if t == "Type" then { o with type := some v }
  else if t == "Slot" then { o with slot := some v }
  else o

/-- The POL override of `convert`, applied after normalization and before
the none-check of the write. -/
def polOverride (f : FileFormat) (v : Option CellValue) : Option CellValue :=
  match f with
  | .UNITLIST => some (.str "PSA-RODMAN")
  | .LISTADO => some (.str "ECGYE")
  | .RODMAN | .RODMAN_CONVERTED =>
      match v with
      | Option.none => some (.str "RODMAN")
      | some v0 => some v0
  | _ => v

/-- The per-run configuration assembled by `convert` before the row loop. -/
structure Cfg where
  ws : Worksheet
  format : FileFormat
  direct : List (String × Option String)
  sealCols : List String
  idx : List (String × Nat)
  containerColIdx : Nat
  voyageColIdx : Option Nat
  carrierColIdx : Option Nat
  voyageFilters : Option (List String)
  carrierFilters : Option (List String)
  dataStart : Nat
deriving DecidableEq, Repr

/-- One direct-mapping copy step: for a mapped pair whose source column was
found, normalize the cell, apply the POL override when the target is POL,
and write when non-none. -/
def applyDirectStep (cfg : Cfg) (r : Nat) (out : OutRow) (p : String × Option String) :
    OutRow :=
  match p.2 with
  | Option.none => out
  | some tname =>
    match lookupIdx cfg.idx p.1 with
    | Option.none => out
    | some ci =>
      let v := get_non_empty_value (cfg.ws.cellAt r ci)
      let v := if tname == "POL" then polOverride cfg.format v else v
      match v with
      | Option.none => out
      | some v0 => out.setField tname v0

/-- Copy the direct mappings into the output row, in dictionary order. -/
def applyDirect (cfg : Cfg) (r : Nat) (out : OutRow) : OutRow :=
  cfg.direct.foldl (applyDirectStep cfg r) out

/-- One slot component of the COLON YARD merge: the normalized string form
of the column's cell if the column is present and the value truthy, with
Bay and Row zero-padded to two digits. -/
def slotPartOf (cfg : Cfg) (r : Nat) (col : String) : Option String :=
  match lookupIdx cfg.idx col with
  | Option.none => Option.none
  | some ci =>
    match get_non_empty_value (cfg.ws.cellAt r ci) with
    | Option.none => Option.none
    | some v =>
      if pyTruthy v then
        some (if col == "Current LOC Bay" || col == "Current LOC Row"
              then pyZfill 2 (pyStr v) else pyStr v)
      else Option.none

/-- The COLON YARD slot merge: concatenate the present slot components and
write the result when at least one part was collected. -/
def applySlot (cfg : Cfg) (r : Nat) (out : OutRow) : OutRow :=
  if cfg.format = .COLON_YARD then
    let parts := colonSlotColumns.filterMap (slotPartOf cfg r)
    if parts.isEmpty then out
    else { out with slot := some (.str (String.join parts)) }
  else out

/-- Whether the slash-truncation of seal values applies to the format. -/
def slashFormat (f : FileFormat) : Bool :=
  f = .RODMAN || f = .RODMAN_CONVERTED || f = .UNITLIST

/-- Membership in the seen-set of collected seal values (Python's
`value not in seals_added`, negated). -/
def listHas : List CellValue → CellValue → Bool
  | [], _ => false
  | a :: t, v => a == v || listHas t v

/-- One seal-collection step, operating on the raw value of one present
seal column: normalize, apply the slash truncation for the RODMAN /
RODMAN_CONVERTED / UNITLIST formats (discarding a value that truncates to
the empty string), and append unless the value was already collected. -/
def collectStep (f : FileFormat) (acc : List CellValue) (raw : CellValue) :
    List CellValue :=
  match get_non_empty_value raw with
  | Option.none => acc
  | some v0 =>
    let v1 :=
      if pyTruthy v0 && pyInSub "/" (pyStr v0) && slashFormat f then
        let t := pyStrip (pySplitSlashHead (pyStr v0))
        if t == "" then Option.none else some (CellValue.str t)
      else some v0
    match v1 with
    | Option.none => acc
    | some v => if listHas acc v then acc else acc ++ [v]

/-- Seal collection for one row over the raw values of the present seal
columns in list order. -/
def collectSeals (f : FileFormat) (raws : List CellValue) : List CellValue :=
  raws.foldl (collectStep f) []

/-- The raw values of the row's present seal columns, in seal-column order. -/
def rawSealValues (cfg : Cfg) (r : Nat) : List CellValue :=
  cfg.sealCols.filterMap (fun c => (lookupIdx cfg.idx c).map (cfg.ws.cellAt r))

/-- Write the collected seals into the output row: positions 0-3 go to
Seal 1..Seal 4, position 4 to Seal 5, later positions are appended to the
Seal 5 cell joined with the literal separator. -/
def writeSealStep (out : OutRow) (p : Nat × CellValue) : OutRow :=
  let i := p.1
  let v := p.2
  if i = 0 then { out with seal1 := some v }
  else if i = 1 then { out with seal2 := some v }
  else if i = 2 then { out with seal3 := some v }
  else if i = 3 then { out with seal4 := some v }
  else if i = 4 then { out with seal5 := some v }
  else
    let cur := match out.seal5 with
               | some c => pyStr c
               | Option.none => "None"
    { out with seal5 := some (.str (cur ++ "  ;  " ++ pyStr v)) }

def writeSeals (seals : List CellValue) (out : OutRow) : OutRow :=
  (List.enumFrom 0 seals).foldl writeSealStep out

/-- The full per-row field production for an accepted row, and its
(deduplicated) seal count. -/
def processRow (cfg : Cfg) (r : Nat) : OutRow × Nat :=
  let out := applyDirect cfg r emptyOut
  let out := applySlot cfg r out
  let seals := collectSeals cfg.format (rawSealValues cfg r)
  (writeSeals seals out, seals.length)

/-- Voyage membership test `voyage_value not in voyage_filters` (negated):
only a normalized string cell can equal a filter string. -/
def voyageInFilters : Option CellValue → List String → Bool
  | some (.str s), fs => fs.contains s
  | _, _ => false

/-- The UNITLIST voyage filter skip condition for a row. -/
def voyageSkips (cfg : Cfg) (r : Nat) : Bool :=
  match cfg.voyageColIdx with
  | Option.none => false
  | some vi =>
    match cfg.voyageFilters with
    | Option.none => false
    | some fs =>
      if fs.isEmpty then false
      else !(voyageInFilters (get_non_empty_value (cfg.ws.cellAt r vi)) fs)

/-- The COLON YARD Dept Carrier filter skip condition for a row: skip when
the normalized carrier is falsy, or when no filter term is a
case-insensitive substring of it. -/
def carrierSkips (cfg : Cfg) (r : Nat) : Bool :=
  match cfg.carrierColIdx with
  | Option.none => false
  | some ci =>
    match cfg.carrierFilters with
    | Option.none => false
    | some fs =>
      if fs.isEmpty then false
      else
        match get_non_empty_value (cfg.ws.cellAt r ci) with
        | Option.none => true
        | some v =>
          if !pyTruthy v then true
          else !(fs.any (fun fc => pyInSub (pyUpper fc) (pyUpper (pyStr v))))

/-- The additional COLON YARD MSC gate: applied only when the `Carrier`
column is present; skip when the normalized value is falsy or its
upper-case string form is not exactly `MSC`. -/
def mscSkips (cfg : Cfg) (r : Nat) : Bool :=
  if cfg.format = .COLON_YARD then
    match lookupIdx cfg.idx "Carrier" with
    | Option.none => false
    | some mi =>
      match get_non_empty_value (cfg.ws.cellAt r mi) with
      | Option.none => true
      | some v => !pyTruthy v || (pyUpper (pyStr v) != "MSC")
  else false

/-- `seal_distribution[num_seals] += 1` on the ordered dict. -/
def distIncr (d : List (Nat × Nat)) (k : Nat) : List (Nat × Nat) :=
  if d.any (fun p => p.1 == k) then
    d.map (fun p => if p.1 == k then (p.1, p.2 + 1) else p)
  else d ++ [(k, 1)]

/-- The mutable statistics and output state of the row loop. -/
structure LoopState where
  found : Nat := 0
  skipped : Nat := 0
  totalSeals : Nat := 0
  dist : List (Nat × Nat) := []
  outRows : List OutRow := []
deriving DecidableEq, Repr

def initState : LoopState := {}

def skipState (st : LoopState) : LoopState := { st with skipped := st.skipped + 1 }

/-- Accept a row: produce its output row, add its seal count to the totals
and the distribution, and append it to the written output rows. -/
def acceptState (cfg : Cfg) (r : Nat) (st : LoopState) : LoopState :=
  let (out, n) := processRow cfg r
  { st with
    found := st.found + 1
    totalSeals := st.totalSeals + n
    dist := if 0 < n then distIncr st.dist n else st.dist
    outRows := st.outRows ++ [out] }

/-- Whether a voyage or carrier filter column is active for the run
(`voyage_col_idx` / `carrier_col_idx` set). -/
def filterActive (cfg : Cfg) : Bool :=
  cfg.voyageColIdx.isSome || cfg.carrierColIdx.isSome

/-- The row loop of `convert` over the remaining source row indices: a row
whose container normalizes to none stops the whole run when no filter
column is active and is skipped otherwise; then the voyage filter, the
carrier filter and the MSC gate may skip the row; otherwise it is
accepted. -/
def processRows (cfg : Cfg) : List Nat → LoopState → LoopState
  | [], st => st
  | r :: rest, st =>
    if (get_non_empty_value (cfg.ws.cellAt r cfg.containerColIdx)).isNone then
      if filterActive cfg then processRows cfg rest st else st
    else if voyageSkips cfg r then processRows cfg rest (skipState st)
    else if carrierSkips cfg r then processRows cfg rest (skipState st)
    else if mscSkips cfg r then processRows cfg rest (skipState st)
    else processRows cfg rest (acceptState cfg r st)

/-- Assemble the run configuration after format detection; `none` when the
container column is absent (the run fails). -/
def setupCfg (f : FileFormat) (headers : List CellValue) (ds : Nat)
    (ws : Worksheet) (vf cf : Option (List String)) : Option Cfg :=
  let idx := build_col_indices f headers
  let ccn := container_col_name f idx
  match lookupIdx idx ccn with
  | Option.none => Option.none
  | some cci =>
    let vci := if f = .UNITLIST && truthyFilters vf then
                 (lookupIdx idx "Voyage Out").orElse (fun _ => lookupIdx idx "Voyage In")
               else Option.none
    let cari := if f = .COLON_YARD && truthyFilters cf then
                  lookupIdx idx "Dept Carrier"
                else Option.none
    some { ws := ws, format := f, direct := direct_mappings f,
           sealCols := seal_columns f headers, idx := idx,
           containerColIdx := cci, voyageColIdx := vci, carrierColIdx := cari,
           voyageFilters := vf, carrierFilters := cf, dataStart := ds }

/-- The source row indices iterated by the loop:
`range(data_start_row, max_row + 1)`. -/
def rowIdxs (cfg : Cfg) : List Nat :=
  List.range' cfg.dataStart (cfg.ws.maxRow + 1 - cfg.dataStart)

def runState (cfg : Cfg) : LoopState := processRows cfg (rowIdxs cfg) initState

/-- `SealCheckConverterCore.get_pol_value` applied to the written template:
the POL cell of the first output row (template row 2, column 2), stripped
and upper-cased when truthy.  The template is loaded with empty data
cells, so an unwritten cell reads as `None`. -/
def get_pol_value (outRows : List OutRow) : Option String :=
  match outRows with
  | [] => Option.none
  | o :: _ =>
    match o.pol with
    | some v => if pyTruthy v then some (pyUpper (pyStrip (pyStr v))) else Option.none
    | Option.none => Option.none

/-- A value of the returned result dictionary. -/
inductive RVal where
  | nat (n : Nat)
  | out (p : Option String)
  | dist (d : List (Nat × Nat))
  | pol (s : Option String)
deriving DecidableEq, Repr

/-- The observable outcome of a `convert` call: the returned dictionary
(`none` models the Python `None` failure return), whether the output file
was saved, and the output rows written into the template. -/
structure ConvertOutcome where
  result : Option (List (String × RVal))
  saved : Bool
  outRows : List OutRow
deriving DecidableEq, Repr

/-- The body of `convert` after format detection. -/
def convertWith (f : FileFormat) (headers : List CellValue) (ds : Nat)
    (ws : Worksheet) (output_path : String) (vf cf : Option (List String)) :
    ConvertOutcome :=
  match setupCfg f headers ds ws vf cf with
  | Option.none => ⟨Option.none, false, []⟩
  | some cfg =>
    let st := runState cfg
    if st.found = 0 then
      ⟨some [("containers", .nat 0), ("seals", .nat 0),
             ("output", .out Option.none), ("distribution", .dist [])],
       false, st.outRows⟩
    else
      ⟨some [("containers", .nat st.found), ("seals", .nat st.totalSeals),
             ("output", .out (some output_path)), ("distribution", .dist st.dist),
             ("pol", .pol (get_pol_value st.outRows))],
       true, st.outRows⟩

/-- `SealCheckConverterCore.convert` on an in-memory source worksheet. -/
def convert (ws : Worksheet) (output_path : String)
    (vf cf : Option (List String)) : ConvertOutcome :=
  let fhd := detect_file_format ws
  convertWith fhd.1 fhd.2.1 fhd.2.2 ws output_path vf cf

/-! ### Helper lemmas about the string model -/

theorem dropWhile_self_dropWhile {α : Type} (p : α → Bool) (l : List α) :
    (l.dropWhile p).dropWhile p = l.dropWhile p := by
  induction l with
  | nil => rfl
  | cons a t ih =>
    by_cases h : p a
    · simp [List.dropWhile_cons, h, ih]
    · simp [List.dropWhile_cons, h]

theorem length_dropWhile_le {α : Type} (p : α → Bool) (l : List α) :
    (l.dropWhile p).length ≤ l.length := by
  induction l with
  | nil => exact Nat.le_refl _
  | cons a t ih =>
    by_cases h : p a
    · simp only [List.dropWhile_cons, h, if_true]
      exact Nat.le_trans ih (Nat.le_succ _)
    · simp [List.dropWhile_cons, h]

theorem dropWhile_eq_self_of_prefix {α : Type} (p : α → Bool) {l₁ l₂ : List α}
    (hpre : l₁ <+: l₂) (h : l₂.dropWhile p = l₂) : l₁.dropWhile p = l₁ := by
  cases l₁ with
  | nil => rfl
  | cons a t =>
    obtain ⟨s, hs⟩ := hpre
    by_cases hpa : p a
    · exfalso
      have hl2 : l₂ = a :: (t ++ s) := by rw [← hs]; rfl
      have h1 : l₂.dropWhile p = (t ++ s).dropWhile p := by
        rw [hl2, List.dropWhile_cons, if_pos hpa]
      have h2 : ((t ++ s).dropWhile p).length ≤ (t ++ s).length :=
        length_dropWhile_le p (t ++ s)
      rw [h, hl2] at h1
      rw [← h1] at h2
      simp only [List.length_cons] at h2
      omega
    · simp [List.dropWhile_cons, hpa]

theorem toList_mk (l : List Char) : (String.mk l).toList = l := rfl

theorem trimLeftList_idem (l : List Char) :
    trimLeftList (trimLeftList l) = trimLeftList l :=
  dropWhile_self_dropWhile isPySpace l

theorem trimRightList_idem (l : List Char) :
    trimRightList (trimRightList l) = trimRightList l := by
  unfold trimRightList
  rw [List.reverse_reverse, dropWhile_self_dropWhile]

theorem trimRightList_prefix_self (l : List Char) : trimRightList l <+: l := by
  unfold trimRightList
  have h : (l.reverse.dropWhile isPySpace).reverse <+: l.reverse.reverse :=
    List.reverse_prefix.mpr (List.dropWhile_suffix isPySpace)
  rwa [List.reverse_reverse] at h

theorem trimLeftList_trimRightList_trimLeftList (l : List Char) :
    trimLeftList (trimRightList (trimLeftList l)) = trimRightList (trimLeftList l) := by
  exact dropWhile_eq_self_of_prefix isPySpace
    (trimRightList_prefix_self (trimLeftList l)) (trimLeftList_idem l)

theorem pyStrip_idem (s : String) : pyStrip (pyStrip s) = pyStrip s := by
  unfold pyStrip
  rw [toList_mk, trimLeftList_trimRightList_trimLeftList, trimRightList_idem]

/-- A value returned by the normalizer is always Python-truthy: the empty
string, zero and `None` are all filtered out. -/
theorem pyTruthy_of_normalized {x v : CellValue}
    (h : get_non_empty_value x = some v) : pyTruthy v = true := by
  cases x with
  | none => simp [get_non_empty_value] at h
  | nan => simp [get_non_empty_value] at h
  | int n =>
    by_cases hn : n = 0
    · simp [get_non_empty_value, hn] at h
    · simp only [get_non_empty_value, hn, if_false, Option.some.injEq] at h
      subst h
      simp [pyTruthy, hn]
  | str s0 =>
    simp only [get_non_empty_value] at h
    split at h
    · exact absurd h (by simp)
    · rename_i hcontains
      have hv : v = .str (pyStrip s0) := by
        exact (Option.some.injEq _ _ ▸ h).symm
      subst hv
      simp only [pyTruthy, decide_eq_true_eq, ne_eq]
      intro hempty
      rw [hempty] at hcontains
      exact hcontains rfl

/-! ### C9 — normalization idempotence -/

/-- C9: value normalization is idempotent.  `normalize(None)` is `None`, so
re-normalizing the result of `get_non_empty_value` (reading a rejected
value back as an empty cell) returns exactly the same result. -/
theorem get_non_empty_value_idem (x : CellValue) :
    get_non_empty_value ((get_non_empty_value x).getD CellValue.none) =
      get_non_empty_value x := by
  cases x with
  | none => rfl
  | nan => rfl
  | int n =>
    by_cases hn : n = 0
    · simp [get_non_empty_value, hn]
    · simp [get_non_empty_value, hn]
  | str s0 =>
    by_cases hc : (["", "NAN", ",----------------------", "0"] : List String).contains
        (pyUpper (pyStrip s0)) = true
    · simp only [get_non_empty_value, if_pos hc]
      rfl
    · simp only [get_non_empty_value, if_neg hc, Option.getD_some, pyStrip_idem]

/-! ### C1 — detection totality, priority and fallback -/

/-- The PISCO signature: row-1 headers contain all of CtrNbr, POR, SzTp. -/
def piscoSignature (ws : Worksheet) : Bool :=
  (["CtrNbr", "POR", "SzTp"] : List String).all (containsCell (ws.rowAt 1))

/-- The LIST_OF_UNIT signature: row-1 headers contain UNIT, SIZE, POL, POD, SEAL. -/
def listOfUnitSignature (ws : Worksheet) : Bool :=
  (["UNIT", "SIZE", "POL", "POD", "SEAL"] : List String).all (containsCell (ws.rowAt 1))

/-- The UNITLIST signature: row-1 headers contain Voyage In or Voyage Out. -/
def unitlistSignature (ws : Worksheet) : Bool :=
  containsCell (ws.rowAt 1) "Voyage In" || containsCell (ws.rowAt 1) "Voyage Out"

/-- The COLON YARD signature: row-1 headers contain a Current LOC column. -/
def colonSignature (ws : Worksheet) : Bool :=
  containsCell (ws.rowAt 1) "Current LOC Block" || containsCell (ws.rowAt 1) "Current LOC Bay"

/-- The RODMAN signature: some truthy row-1 header contains "Slot (Yard)". -/
def rodmanSignature (ws : Worksheet) : Bool :=
  (ws.rowAt 1).any (fun h => pyTruthy h && pyInSub "Slot (Yard)" (pyStr h))

/-- The LISTADO signature: some truthy row-3 header contains "CONTENEDOR"
case-insensitively. -/
def listadoSignature (ws : Worksheet) : Bool :=
  (ws.rowAt 3).any (fun h => pyTruthy h && pyInSub "CONTENEDOR" (pyUpper (pyStr h)))

/-- C1: format detection is a total function (exactly one result per
worksheet); a worksheet satisfying both the PISCO and the UNITLIST
signatures detects as PISCO (rule 1 precedes rule 3); and a worksheet
matching none of the six signatures detects as GATE_IN with header row 1
and first data row 2. -/
theorem detect_file_format_priority_and_fallback (ws : Worksheet) :
    (∃! p, detect_file_format ws = p) ∧
    (piscoSignature ws = true ∧ unitlistSignature ws = true →
      (detect_file_format ws).1 = FileFormat.PISCO) ∧
    ((piscoSignature ws || listOfUnitSignature ws || unitlistSignature ws ||
      colonSignature ws || rodmanSignature ws || listadoSignature ws) = false →
      detect_file_format ws = (FileFormat.GATE_IN, ws.rowAt 1, 2)) := by
  refine ⟨⟨detect_file_format ws, rfl, fun y hy => hy.symm⟩, ?_, ?_⟩
  · rintro ⟨h1, _h2⟩
    unfold detect_file_format
    simp only [piscoSignature] at h1
    simp [h1]
  · intro h
    simp only [Bool.or_eq_false_iff] at h
    obtain ⟨⟨⟨⟨⟨hp, hl⟩, hu⟩, hc⟩, hr⟩, hld⟩ := h
    unfold detect_file_format
    simp only [piscoSignature] at hp
    simp only [listOfUnitSignature] at hl
    simp only [unitlistSignature] at hu
    simp only [colonSignature] at hc
    simp only [rodmanSignature] at hr
    simp only [listadoSignature] at hld
    simp [hp, hl, hu, hc, hr, hld]

/-- Concrete instantiation of C1: a worksheet whose row-1 headers satisfy
both the PISCO and the UNITLIST signatures detects as PISCO, and a
worksheet with an unknown header detects as GATE_IN. -/
theorem detect_file_format_priority_and_fallback_witness :
    (detect_file_format ⟨[[.str "CtrNbr", .str "POR", .str "SzTp", .str "Voyage In"]]⟩).1 =
      FileFormat.PISCO ∧
    detect_file_format ⟨[[.str "Mystery"]]⟩ =
      (FileFormat.GATE_IN, (⟨[[.str "Mystery"]]⟩ : Worksheet).rowAt 1, 2) :=
  ⟨(detect_file_format_priority_and_fallback _).2.1 (by decide),
   (detect_file_format_priority_and_fallback _).2.2 (by decide)⟩

/-! ### C2 — stop vs skip on a blank container cell -/

/-- The unfiltered GATE_IN worksheet of the stop-vs-skip example: container
values A1, A2, blank, A3 in consecutive data rows. -/
def stopVsSkipWs : Worksheet :=
  ⟨[[.str "CONTENEDOR"], [.str "A1"], [.str "A2"], [.str ""], [.str "A3"]]⟩

/-- C2: on a row whose container cell normalizes to none, the loop stops for
the whole run when no filter column is active — the remaining rows are never
examined and the state is returned unchanged — and merely skips the row when
a filter column is active.  On the unfiltered GATE_IN example worksheet with
containers A1, A2, blank, A3, exactly 2 containers are accepted even though
the A3 row holds a non-empty container. -/
theorem container_blank_stop_vs_skip :
    (∀ (cfg : Cfg) (r : Nat) (rest : List Nat) (st : LoopState),
      filterActive cfg = false →
      get_non_empty_value (cfg.ws.cellAt r cfg.containerColIdx) = Option.none →
      processRows cfg (r :: rest) st = st) ∧
    (∀ (cfg : Cfg) (r : Nat) (rest : List Nat) (st : LoopState),
      filterActive cfg = true →
      get_non_empty_value (cfg.ws.cellAt r cfg.containerColIdx) = Option.none →
      processRows cfg (r :: rest) st = processRows cfg rest st) ∧
    (convert stopVsSkipWs "out.xlsx" Option.none Option.none).result =
      some [("containers", RVal.nat 2), ("seals", RVal.nat 0),
            ("output", RVal.out (some "out.xlsx")), ("distribution", RVal.dist []),
            ("pol", RVal.pol Option.none)] ∧
    get_non_empty_value (stopVsSkipWs.cellAt 5 1) = some (.str "A3") := by
  refine ⟨?_, ?_, by decide, by decide⟩
  · intro cfg r rest st hactive hcont
    simp only [processRows, hcont, Option.isNone_none, if_true, hactive,
      Bool.false_eq_true, if_false]
  · intro cfg r rest st hactive hcont
    simp only [processRows, hcont, Option.isNone_none, if_true, hactive]

/-- Concrete instantiation of C2: with the stop-vs-skip worksheet and no
active filter, the loop entered at the blank row 4 returns its state
unchanged without examining row 5. -/
theorem container_blank_stop_vs_skip_witness :
    processRows
      ⟨stopVsSkipWs, .GATE_IN, [], [], [("CONTENEDOR", 1)], 1,
       Option.none, Option.none, Option.none, Option.none, 2⟩
      (4 :: [5]) initState = initState :=
  container_blank_stop_vs_skip.1 _ 4 [5] initState (by decide) (by decide)

/-! ### POL bookkeeping lemmas -/

theorem OutRow.setField_pol (o : OutRow) (t : String) (v : CellValue) :
    (o.setField t v).pol = if t == "POL" then some v else o.pol := by
  unfold OutRow.setField
  by_cases h1 : t = "Container"
  · subst h1; rfl
  · by_cases h2 : t = "POL"
    · subst h2; rfl
    · by_cases h3 : t = "POD"
      · subst h3; rfl
      · by_cases h4 : t = "Type"
        · subst h4; rfl
        · by_cases h5 : t = "Slot"
          · subst h5; rfl
          · simp [h1, h2, h3, h4, h5]

/-- The pol cell updated by a single direct-mapping step. -/
def polStep (cfg : Cfg) (r : Nat) (p : Option CellValue) (e : String × Option String) :
    Option CellValue :=
  if e.2 = some "POL" then
    match lookupIdx cfg.idx e.1 with
    | Option.none => p
    | some ci =>
      match polOverride cfg.format (get_non_empty_value (cfg.ws.cellAt r ci)) with
      | Option.none => p
      | some v0 => some v0
  else p

theorem applyDirectStep_pol (cfg : Cfg) (r : Nat) (out : OutRow)
    (e : String × Option String) :
    (applyDirectStep cfg r out e).pol = polStep cfg r out.pol e := by
  rcases e with ⟨name, tn⟩
  cases tn with
  | none => simp [applyDirectStep, polStep]
  | some t =>
    cases hl : lookupIdx cfg.idx name with
    | none => simp [applyDirectStep, polStep, hl]
    | some ci =>
      by_cases ht : t = "POL"
      · subst ht
        simp only [applyDirectStep, hl, polStep]
        cases hv : polOverride cfg.format (get_non_empty_value (cfg.ws.cellAt r ci)) with
        | none => simp [hv]
        | some v0 => simp [hv, OutRow.setField_pol]
      · have htb : (t == "POL") = false := by
          simp [ht]
        simp only [applyDirectStep, hl, htb, Bool.false_eq_true, if_false, polStep]
        have hne : ¬ (some t = some "POL") := by simp [ht]
        rw [if_neg hne]
        cases hv : get_non_empty_value (cfg.ws.cellAt r ci) with
        | none => rfl
        | some v0 => simp [OutRow.setField_pol, htb]

theorem foldl_applyDirectStep_pol (cfg : Cfg) (r : Nat)
    (l : List (String × Option String)) (out : OutRow) :
    (l.foldl (applyDirectStep cfg r) out).pol = l.foldl (polStep cfg r) out.pol := by
  induction l generalizing out with
  | nil => rfl
  | cons e t ih =>
    simp only [List.foldl_cons, ih, applyDirectStep_pol]

theorem applyDirect_pol (cfg : Cfg) (r : Nat) (out : OutRow) :
    (applyDirect cfg r out).pol = cfg.direct.foldl (polStep cfg r) out.pol :=
  foldl_applyDirectStep_pol cfg r cfg.direct out

theorem writeSealStep_pol (out : OutRow) (p : Nat × CellValue) :
    (writeSealStep out p).pol = out.pol := by
  unfold writeSealStep
  dsimp only
  split_ifs <;> rfl

theorem writeSeals_pol (seals : List CellValue) (out : OutRow) :
    (writeSeals seals out).pol = out.pol := by
  unfold writeSeals
  generalize List.enumFrom 0 seals = l
  induction l generalizing out with
  | nil => rfl
  | cons e t ih => simp only [List.foldl_cons, ih, writeSealStep_pol]

theorem applySlot_pol (cfg : Cfg) (r : Nat) (out : OutRow) :
    (applySlot cfg r out).pol = out.pol := by
  unfold applySlot
  split_ifs with h
  · dsimp only
    split_ifs <;> rfl
  · rfl

theorem processRow_pol (cfg : Cfg) (r : Nat) :
    (processRow cfg r).1.pol = cfg.direct.foldl (polStep cfg r) Option.none := by
  unfold processRow
  simp only [writeSeals_pol, applySlot_pol, applyDirect_pol]
  rfl

/-! ### C4 — POL overrides -/

/-- A UNITLIST worksheet without a POL source column: one accepted data row. -/
def unitlistNoPolWs : Worksheet :=
  ⟨[[.str "Unit", .str "Voyage In"], [.str "A1", .str "V1"]]⟩

/-- C4 counterexample: on a UNITLIST worksheet whose source has no POL
column, the accepted row's POL output cell is never written, not forced to
"PSA-RODMAN" — the claimed unconditional override does not hold. -/
theorem pol_override_counterexample :
    (detect_file_format unitlistNoPolWs).1 = FileFormat.UNITLIST ∧
    (convert unitlistNoPolWs "o" Option.none Option.none).outRows =
      [{ container := some (.str "A1") }] ∧
    (convert unitlistNoPolWs "o" Option.none Option.none).outRows.map OutRow.pol ≠
      [some (.str "PSA-RODMAN")] := by
  refine ⟨rfl, by decide, by decide⟩

/-- C4 (amended): for every accepted row, when the format's POL-mapped
source column is present in the column map, POL is forced to "PSA-RODMAN"
for UNITLIST and to "ECGYE" for LISTADO regardless of the source value,
and for RODMAN / RODMAN_CONVERTED it is the normalized source value, with
"RODMAN" substituted exactly when that value is none; when the POL-mapped
source column is absent, the POL cell is not written at all. -/
theorem pol_override_rules (cfg : Cfg) (r : Nat) :
    (cfg.format = FileFormat.UNITLIST → cfg.direct = direct_mappings .UNITLIST →
      (processRow cfg r).1.pol =
        if (lookupIdx cfg.idx "POL").isSome then some (.str "PSA-RODMAN")
        else Option.none) ∧
    (cfg.format = FileFormat.LISTADO → cfg.direct = direct_mappings .LISTADO →
      (processRow cfg r).1.pol =
        if (lookupIdx cfg.idx "POT (PUERTO DE DESCARGA)").isSome then some (.str "ECGYE")
        else Option.none) ∧
    ((cfg.format = FileFormat.RODMAN ∨ cfg.format = FileFormat.RODMAN_CONVERTED) →
      cfg.direct = direct_mappings .RODMAN →
      (processRow cfg r).1.pol =
        match lookupIdx cfg.idx "POL" with
        | some ci => some ((get_non_empty_value (cfg.ws.cellAt r ci)).getD (.str "RODMAN"))
        | Option.none => Option.none) := by
  refine ⟨?_, ?_, ?_⟩
  · intro hf hd
    rw [processRow_pol, hd]
    simp only [direct_mappings, List.foldl_cons, List.foldl_nil, polStep, hf, polOverride]
    cases hl : lookupIdx cfg.idx "POL" <;> simp [hl]
  · intro hf hd
    rw [processRow_pol, hd]
    simp only [direct_mappings, List.foldl_cons, List.foldl_nil, polStep, hf, polOverride]
    cases hl : lookupIdx cfg.idx "POT (PUERTO DE DESCARGA)" <;> simp [hl]
  · intro hf hd
    rw [processRow_pol, hd]
    have hover : ∀ v, polOverride cfg.format v =
        some (v.getD (.str "RODMAN")) := by
      intro v
      rcases hf with hf | hf <;> rw [hf] <;> cases v <;> rfl
    simp only [direct_mappings, List.foldl_cons, List.foldl_nil, polStep, hover]
    cases hl : lookupIdx cfg.idx "POL" <;> simp [hl]

/-- A concrete UNITLIST run configuration whose POL source column is
present (column 3) and holds "XX" in data row 2. -/
def polWitnessCfg : Cfg :=
  ⟨⟨[[.str "Unit", .str "Voyage In", .str "POL"], [.str "A1", .str "V1", .str "XX"]]⟩,
   .UNITLIST, direct_mappings .UNITLIST, seal_columns .UNITLIST [],
   [("Unit", 1), ("POL", 3)], 1, Option.none, Option.none, Option.none, Option.none, 2⟩

/-- Concrete instantiation of C4 (amended): with the POL column present and
holding "XX", the accepted UNITLIST row's POL is still "PSA-RODMAN". -/
theorem pol_override_rules_witness :
    (processRow polWitnessCfg 2).1.pol = some (.str "PSA-RODMAN") := by
  have h := (pol_override_rules polWitnessCfg 2).1 rfl rfl
  rw [h]
  decide

/-! ### C5 — the COLON YARD MSC gate -/

/-- Unfolding of the loop on a row whose container is non-empty: the three
skip checks decide between skipping and accepting. -/
theorem processRows_cons_decision (cfg : Cfg) (r : Nat) (rest : List Nat)
    (st : LoopState)
    (hcont : (get_non_empty_value (cfg.ws.cellAt r cfg.containerColIdx)).isNone = false) :
    processRows cfg (r :: rest) st =
      if voyageSkips cfg r then processRows cfg rest (skipState st)
      else if carrierSkips cfg r then processRows cfg rest (skipState st)
      else if mscSkips cfg r then processRows cfg rest (skipState st)
      else processRows cfg rest (acceptState cfg r st) := by
  simp only [processRows, hcont, Bool.false_eq_true, if_false]

/-- A COLON YARD worksheet with no "Carrier" column at all; data begins in
row 9 with container C1. -/
def colonNoCarrierWs : Worksheet :=
  ⟨[[.str "Container No", .str "Current LOC Bay"],
    [], [], [], [], [], [], [],
    [.str "C1", .int 3]]⟩

/-- C5 counterexample: a COLON YARD row whose Carrier value is missing
because the worksheet has no Carrier column is accepted, not skipped — the
MSC gate is silently disabled when the Carrier column is absent from the
column map. -/
theorem colon_msc_gate_counterexample :
    (detect_file_format colonNoCarrierWs).1 = FileFormat.COLON_YARD ∧
    lookupIdx (build_col_indices .COLON_YARD (colonNoCarrierWs.rowAt 1)) "Carrier" =
      Option.none ∧
    (convert colonNoCarrierWs "o" Option.none Option.none).outRows.length = 1 := by
  refine ⟨rfl, by decide, by decide⟩

/-- C5 (amended): for every COLON YARD row that reaches the carrier checks,
when the "Carrier" column is present in the column map the row is accepted
only if its normalized upper-case Carrier value is exactly "MSC": a
matching row is accepted, and a row whose Carrier cell normalizes to none
or differs from "MSC" is counted as skipped; when the Carrier column is
absent from the map the gate is not applied. -/
theorem colon_msc_gate (cfg : Cfg) (r : Nat) (rest : List Nat) (st : LoopState)
    (hf : cfg.format = FileFormat.COLON_YARD)
    (hcont : (get_non_empty_value (cfg.ws.cellAt r cfg.containerColIdx)).isNone = false)
    (hv : voyageSkips cfg r = false) (hc : carrierSkips cfg r = false)
    (mi : Nat) (hmi : lookupIdx cfg.idx "Carrier" = some mi) :
    (∀ v, get_non_empty_value (cfg.ws.cellAt r mi) = some v →
      pyUpper (pyStr v) = "MSC" →
      processRows cfg (r :: rest) st = processRows cfg rest (acceptState cfg r st)) ∧
    (get_non_empty_value (cfg.ws.cellAt r mi) = Option.none →
      processRows cfg (r :: rest) st = processRows cfg rest (skipState st)) ∧
    (∀ v, get_non_empty_value (cfg.ws.cellAt r mi) = some v →
      pyUpper (pyStr v) ≠ "MSC" →
      processRows cfg (r :: rest) st = processRows cfg rest (skipState st)) := by
  refine ⟨?_, ?_, ?_⟩
  · intro v hval hmsc
    have htruthy := pyTruthy_of_normalized hval
    have hskip : mscSkips cfg r = false := by
      simp [mscSkips, hf, hmi, hval, htruthy, hmsc]
    rw [processRows_cons_decision cfg r rest st hcont, if_neg (by simp [hv]),
      if_neg (by simp [hc]), if_neg (by simp [hskip])]
  · intro hval
    have hskip : mscSkips cfg r = true := by
      simp [mscSkips, hf, hmi, hval]
    rw [processRows_cons_decision cfg r rest st hcont, if_neg (by simp [hv]),
      if_neg (by simp [hc]), if_pos (by simp [hskip])]
  · intro v hval hmsc
    have hskip : mscSkips cfg r = true := by
      simp [mscSkips, hf, hmi, hval, hmsc]
    rw [processRows_cons_decision cfg r rest st hcont, if_neg (by simp [hv]),
      if_neg (by simp [hc]), if_pos (by simp [hskip])]

/-- A COLON YARD run configuration whose Carrier column (index 3) holds
" msc " in data row 9: normalization and upper-casing make it MSC. -/
def colonMscWitnessCfg : Cfg :=
  ⟨⟨[[.str "Container No", .str "Current LOC Bay", .str "Carrier"],
     [], [], [], [], [], [], [],
     [.str "C1", .int 3, .str " msc "]]⟩,
   .COLON_YARD, direct_mappings .COLON_YARD, seal_columns .COLON_YARD [],
   [("Container No", 1), ("Carrier", 3)], 1,
   Option.none, Option.none, Option.none, Option.none, 9⟩

/-- Concrete instantiation of C5 (amended): the row whose Carrier value
normalizes to "msc" (upper-case "MSC") is accepted. -/
theorem colon_msc_gate_witness :
    processRows colonMscWitnessCfg (9 :: []) initState =
      acceptState colonMscWitnessCfg 9 initState :=
  (colon_msc_gate colonMscWitnessCfg 9 [] initState rfl (by decide) (by decide)
      (by decide) 3 (by decide)).1 (.str "msc") (by decide) (by decide)

/-! ### C6 — zero-accepted runs return a soft success -/

/-- C6: whenever the run configuration is built (container column found)
and the row loop accepts zero rows, `convert` returns a result — not the
`None` failure value — reporting zero containers, zero seals, no output
location and an empty distribution, and the output file is not saved. -/
theorem zero_accepted_run (f : FileFormat) (headers : List CellValue) (ds : Nat)
    (ws : Worksheet) (path : String) (vf cf : Option (List String))
    (h : (setupCfg f headers ds ws vf cf).map (fun cfg => (runState cfg).found) =
      some 0) :
    (convertWith f headers ds ws path vf cf).result ≠ Option.none ∧
    (convertWith f headers ds ws path vf cf).result =
      some [("containers", RVal.nat 0), ("seals", RVal.nat 0),
            ("output", RVal.out Option.none), ("distribution", RVal.dist [])] ∧
    (convertWith f headers ds ws path vf cf).saved = false := by
  cases hs : setupCfg f headers ds ws vf cf with
  | none => rw [hs] at h; simp at h
  | some cfg =>
    rw [hs] at h
    simp only [Option.map_some', Option.some.injEq] at h
    refine ⟨?_, ?_, ?_⟩ <;> simp [convertWith, hs, h]

/-- The zero-run worksheet: a UNITLIST source whose single data row has
voyage V2, filtered by voyage V1. -/
def zeroRunWs : Worksheet := ⟨[[.str "Unit", .str "Voyage Out"], [.str "A1", .str "V2"]]⟩

/-- Concrete instantiation of C6: a voyage filter matching no rows yields
the zero-container result and no saved file. -/
theorem zero_accepted_run_witness :
    (convertWith .UNITLIST (zeroRunWs.rowAt 1) 2 zeroRunWs "o" (some ["V1"])
        Option.none).result =
      some [("containers", RVal.nat 0), ("seals", RVal.nat 0),
            ("output", RVal.out Option.none), ("distribution", RVal.dist [])] ∧
    (convertWith .UNITLIST (zeroRunWs.rowAt 1) 2 zeroRunWs "o" (some ["V1"])
        Option.none).saved = false :=
  ⟨(zero_accepted_run _ _ _ _ _ _ _ (by decide)).2.1,
   (zero_accepted_run _ _ _ _ _ _ _ (by decide)).2.2⟩

/-! ### C7 — COLON YARD slot composition -/

/-- The normalized value of a named column for a row, `none` when the
column is absent from the column map. -/
def normalizedAt (cfg : Cfg) (r : Nat) (col : String) : Option CellValue :=
  (lookupIdx cfg.idx col).bind (fun ci => get_non_empty_value (cfg.ws.cellAt r ci))

/-- The slot composition as the specification words it: concatenate, in the
fixed order Block, Bay, Row, Tier, the string forms of the present
normalized components, with Bay and Row zero-padded to 2 digits and Block
and Tier unpadded; absent components contribute nothing, and an empty
composition produces nothing. -/
def slot_spec_compose (block bay row tier : Option CellValue) : Option String :=
  let parts := ([block.map pyStr,
                 bay.map (fun v => pyZfill 2 (pyStr v)),
                 row.map (fun v => pyZfill 2 (pyStr v)),
                 tier.map pyStr]).reduceOption
  if parts.isEmpty then Option.none else some (String.join parts)

theorem slotPartOf_eq (cfg : Cfg) (r : Nat) (col : String) :
    slotPartOf cfg r col = (normalizedAt cfg r col).map
      (fun v => if col == "Current LOC Bay" || col == "Current LOC Row"
                then pyZfill 2 (pyStr v) else pyStr v) := by
  unfold slotPartOf normalizedAt
  cases lookupIdx cfg.idx col with
  | none => rfl
  | some ci =>
    cases hv : get_non_empty_value (cfg.ws.cellAt r ci) with
    | none => simp [hv]
    | some v => simp [hv, pyTruthy_of_normalized hv]

/-- C7: for every COLON YARD row, the written Slot cell is exactly the
specification's composition of the four normalized slot components (and
the cell is left untouched when the composition is empty). -/
theorem slot_composition (cfg : Cfg) (r : Nat) (out : OutRow)
    (hf : cfg.format = FileFormat.COLON_YARD) :
    (applySlot cfg r out).slot =
      match slot_spec_compose (normalizedAt cfg r "Current LOC Block")
          (normalizedAt cfg r "Current LOC Bay")
          (normalizedAt cfg r "Current LOC Row")
          (normalizedAt cfg r "Current LOC Tier") with
      | Option.none => out.slot
      | some s => some (.str s) := by
  unfold applySlot
  rw [if_pos hf]
  dsimp only
  have hparts : colonSlotColumns.filterMap (slotPartOf cfg r) =
      ([(normalizedAt cfg r "Current LOC Block").map pyStr,
        (normalizedAt cfg r "Current LOC Bay").map (fun v => pyZfill 2 (pyStr v)),
        (normalizedAt cfg r "Current LOC Row").map (fun v => pyZfill 2 (pyStr v)),
        (normalizedAt cfg r "Current LOC Tier").map pyStr]).reduceOption := by
    simp only [colonSlotColumns, List.filterMap_cons, List.filterMap_nil, slotPartOf_eq]
    cases normalizedAt cfg r "Current LOC Block" <;>
      cases normalizedAt cfg r "Current LOC Bay" <;>
        cases normalizedAt cfg r "Current LOC Row" <;>
          cases normalizedAt cfg r "Current LOC Tier" <;>
            simp [List.reduceOption]
  rw [hparts]
  unfold slot_spec_compose
  by_cases hP : (([(normalizedAt cfg r "Current LOC Block").map pyStr,
      (normalizedAt cfg r "Current LOC Bay").map (fun v => pyZfill 2 (pyStr v)),
      (normalizedAt cfg r "Current LOC Row").map (fun v => pyZfill 2 (pyStr v)),
      (normalizedAt cfg r "Current LOC Tier").map pyStr]).reduceOption).isEmpty = true
  · rw [if_pos hP]
    simp [hP]
  · rw [if_neg hP]
    simp [hP]

/-- A COLON YARD run configuration whose row 9 has Block "A", Bay 3, Row 7,
Tier 2. -/
def colonSlotWitnessCfg : Cfg :=
  ⟨⟨[[.str "Container No", .str "Current LOC Block", .str "Current LOC Bay",
      .str "Current LOC Row", .str "Current LOC Tier"],
     [], [], [], [], [], [], [],
     [.str "C1", .str "A", .int 3, .int 7, .int 2]]⟩,
   .COLON_YARD, direct_mappings .COLON_YARD, seal_columns .COLON_YARD [],
   [("Container No", 1), ("Current LOC Block", 2), ("Current LOC Bay", 3),
    ("Current LOC Row", 4), ("Current LOC Tier", 5)], 1,
   Option.none, Option.none, Option.none, Option.none, 9⟩

/-- Concrete instantiation of C7: Block "A", Bay 3, Row 7, Tier 2 compose
to "A03072" — Bay and Row zero-padded, Block and Tier not. -/
theorem slot_composition_witness :
    (applySlot colonSlotWitnessCfg 9 emptyOut).slot = some (.str "A03072") := by
  have h := slot_composition colonSlotWitnessCfg 9 emptyOut rfl
  rw [h]
  decide

/-! ### C8 — the fields of a non-failure result -/

/-- A UNITLIST zero-accepted run source (voyage V3 filtered by V9). -/
def emptyResultWs : Worksheet := ⟨[[.str "Unit", .str "Voyage Out"], [.str "B1", .str "V3"]]⟩

/-- A GATE_IN one-row success run source. -/
def successResultWs : Worksheet := ⟨[[.str "CONTENEDOR"], [.str "B1"]]⟩

/-- C8 counterexample: the zero-accepted result dictionary carries only
containers, seals, output and distribution — no pol field — and no result
(zero-accepted or successful) ever carries a skipped-count field, so the
promised statistics fields are not populated identically in every run. -/
theorem result_fields_counterexample :
    ((convert emptyResultWs "o" (some ["V9"]) Option.none).result.getD []).map Prod.fst =
      ["containers", "seals", "output", "distribution"] ∧
    "pol" ∉ ((convert emptyResultWs "o" (some ["V9"]) Option.none).result.getD []).map
      Prod.fst ∧
    ((convert successResultWs "o" Option.none Option.none).result.getD []).map Prod.fst =
      ["containers", "seals", "output", "distribution", "pol"] ∧
    "skipped" ∉ ((convert successResultWs "o" Option.none Option.none).result.getD []).map
      Prod.fst := by
  refine ⟨by decide, by decide, by decide, by decide⟩

/-- C8 (amended): every non-failure result carries the fields containers,
seals, output and distribution, in that order; the pol field is present
exactly when the result's containers count is non-zero; and no result ever
carries a skipped field — the skipped count is reported only through the
progress log. -/
theorem result_fields (f : FileFormat) (headers : List CellValue) (ds : Nat)
    (ws : Worksheet) (path : String) (vf cf : Option (List String))
    (l : List (String × RVal))
    (h : (convertWith f headers ds ws path vf cf).result = some l) :
    (l.map Prod.fst = ["containers", "seals", "output", "distribution"] ∨
      l.map Prod.fst = ["containers", "seals", "output", "distribution", "pol"]) ∧
    "skipped" ∉ l.map Prod.fst ∧
    ("pol" ∈ l.map Prod.fst ↔
      ∃ n, ("containers", RVal.nat n) ∈ l ∧ n ≠ 0) := by
  unfold convertWith at h
  cases hs : setupCfg f headers ds ws vf cf with
  | none => rw [hs] at h; simp at h
  | some cfg =>
    rw [hs] at h
    dsimp only at h
    split_ifs at h with h0
    · have hl : l = [("containers", RVal.nat 0), ("seals", RVal.nat 0),
          ("output", RVal.out Option.none), ("distribution", RVal.dist [])] := by
        exact (Option.some.injEq _ _ ▸ h).symm
      subst hl
      refine ⟨Or.inl rfl, by decide, ?_⟩
      simp
    · have hl : l = [("containers", RVal.nat (runState cfg).found),
          ("seals", RVal.nat (runState cfg).totalSeals),
          ("output", RVal.out (some path)),
          ("distribution", RVal.dist (runState cfg).dist),
          ("pol", RVal.pol (get_pol_value (runState cfg).outRows))] := by
        exact (Option.some.injEq _ _ ▸ h).symm
      subst hl
      refine ⟨Or.inr rfl, by simp, ?_⟩
      constructor
      · intro _
        exact ⟨(runState cfg).found, by simp, h0⟩
      · intro _
        simp

/-- Concrete instantiation of C8 (amended) on the zero-accepted run. -/
theorem result_fields_witness :
    ([("containers", RVal.nat 0), ("seals", RVal.nat 0),
      ("output", RVal.out Option.none),
      ("distribution", RVal.dist [])].map Prod.fst =
        ["containers", "seals", "output", "distribution"] ∨
      [("containers", RVal.nat 0), ("seals", RVal.nat 0),
       ("output", RVal.out Option.none),
       ("distribution", RVal.dist [])].map Prod.fst =
        ["containers", "seals", "output", "distribution", "pol"]) ∧
    "skipped" ∉ [("containers", RVal.nat 0), ("seals", RVal.nat 0),
      ("output", RVal.out Option.none),
      ("distribution", RVal.dist [])].map Prod.fst ∧
    ("pol" ∈ [("containers", RVal.nat 0), ("seals", RVal.nat 0),
      ("output", RVal.out Option.none),
      ("distribution", RVal.dist [])].map Prod.fst ↔
      ∃ n, ("containers", RVal.nat n) ∈
        [("containers", RVal.nat 0), ("seals", RVal.nat 0),
         ("output", RVal.out Option.none),
         ("distribution", RVal.dist [])] ∧ n ≠ 0) :=
  result_fields .UNITLIST (emptyResultWs.rowAt 1) 2 emptyResultWs "o" (some ["V9"])
    Option.none _ (by decide)

/-! ### C10 — supplied voyage filters without a voyage column -/

theorem processRows_ignores_voyageFilters (ws : Worksheet) (fmt : FileFormat)
    (direct : List (String × Option String)) (sealCols : List String)
    (idx : List (String × Nat)) (cci : Nat) (cari : Option Nat)
    (vf1 vf2 cf : Option (List String)) (ds : Nat) (l : List Nat) (st : LoopState) :
    processRows ⟨ws, fmt, direct, sealCols, idx, cci, Option.none, cari, vf1, cf, ds⟩ l st =
      processRows ⟨ws, fmt, direct, sealCols, idx, cci, Option.none, cari, vf2, cf, ds⟩ l st := by
  induction l generalizing st with
  | nil => rfl
  | cons r rest ih =>
    simp only [processRows]
    rw [show voyageSkips ⟨ws, fmt, direct, sealCols, idx, cci, Option.none, cari, vf1, cf, ds⟩ r
        = false from rfl]
    rw [show voyageSkips ⟨ws, fmt, direct, sealCols, idx, cci, Option.none, cari, vf2, cf, ds⟩ r
        = false from rfl]
    rw [show carrierSkips ⟨ws, fmt, direct, sealCols, idx, cci, Option.none, cari, vf1, cf, ds⟩ r
        = carrierSkips ⟨ws, fmt, direct, sealCols, idx, cci, Option.none, cari, vf2, cf, ds⟩ r
        from rfl]
    rw [show mscSkips ⟨ws, fmt, direct, sealCols, idx, cci, Option.none, cari, vf1, cf, ds⟩ r
        = mscSkips ⟨ws, fmt, direct, sealCols, idx, cci, Option.none, cari, vf2, cf, ds⟩ r
        from rfl]
    rw [show acceptState ⟨ws, fmt, direct, sealCols, idx, cci, Option.none, cari, vf1, cf, ds⟩ r st
        = acceptState ⟨ws, fmt, direct, sealCols, idx, cci, Option.none, cari, vf2, cf, ds⟩ r st
        from rfl]
    rw [show filterActive ⟨ws, fmt, direct, sealCols, idx, cci, Option.none, cari, vf1, cf, ds⟩
        = filterActive ⟨ws, fmt, direct, sealCols, idx, cci, Option.none, cari, vf2, cf, ds⟩
        from rfl]
    split_ifs <;> first | rfl | exact ih _

theorem runState_ignores_voyageFilters (ws : Worksheet) (fmt : FileFormat)
    (direct : List (String × Option String)) (sealCols : List String)
    (idx : List (String × Nat)) (cci : Nat) (cari : Option Nat)
    (vf1 vf2 cf : Option (List String)) (ds : Nat) :
    runState ⟨ws, fmt, direct, sealCols, idx, cci, Option.none, cari, vf1, cf, ds⟩ =
      runState ⟨ws, fmt, direct, sealCols, idx, cci, Option.none, cari, vf2, cf, ds⟩ := by
  unfold runState
  rw [show rowIdxs ⟨ws, fmt, direct, sealCols, idx, cci, Option.none, cari, vf1, cf, ds⟩
      = rowIdxs ⟨ws, fmt, direct, sealCols, idx, cci, Option.none, cari, vf2, cf, ds⟩ from rfl]
  exact processRows_ignores_voyageFilters ws fmt direct sealCols idx cci cari vf1 vf2 cf ds _ _

theorem convertWith_unitlist_nofilter (headers : List CellValue) (ds : Nat)
    (ws : Worksheet) (path : String) (vf : Option (List String))
    (hout : lookupIdx (build_col_indices .UNITLIST headers) "Voyage Out" = Option.none)
    (hin : lookupIdx (build_col_indices .UNITLIST headers) "Voyage In" = Option.none) :
    convertWith .UNITLIST headers ds ws path vf Option.none =
      convertWith .UNITLIST headers ds ws path Option.none Option.none := by
  unfold convertWith setupCfg
  dsimp only
  rw [hout, hin]
  cases hcc : lookupIdx (build_col_indices FileFormat.UNITLIST headers)
      (container_col_name FileFormat.UNITLIST (build_col_indices FileFormat.UNITLIST headers)) with
  | none => rfl
  | some cci =>
    simp only [Option.orElse, ite_self, truthyFilters, Bool.and_false,
      Bool.false_eq_true, if_false]
    rw [runState_ignores_voyageFilters ws FileFormat.UNITLIST
      (direct_mappings FileFormat.UNITLIST) (seal_columns FileFormat.UNITLIST headers)
      (build_col_indices FileFormat.UNITLIST headers) cci Option.none
      vf Option.none Option.none ds]

/-- C10: in a UNITLIST run whose column map has neither a "Voyage Out" nor
a "Voyage In" entry, supplied voyage filters are silently not applied: the
whole run is identical to the unfiltered run; no filter column is active,
so the first blank container cell stops extraction exactly as in an
unfiltered run, and every earlier row with a non-empty container is
accepted. -/
theorem unitlist_voyage_filter_silently_ignored (headers : List CellValue) (ds : Nat)
    (ws : Worksheet) (path : String) (vf : Option (List String))
    (hout : lookupIdx (build_col_indices .UNITLIST headers) "Voyage Out" = Option.none)
    (hin : lookupIdx (build_col_indices .UNITLIST headers) "Voyage In" = Option.none) :
    convertWith .UNITLIST headers ds ws path vf Option.none =
      convertWith .UNITLIST headers ds ws path Option.none Option.none ∧
    (∀ cfg, setupCfg .UNITLIST headers ds ws vf Option.none = some cfg →
      filterActive cfg = false ∧
      (∀ (r : Nat) (rest : List Nat) (st : LoopState),
        get_non_empty_value (cfg.ws.cellAt r cfg.containerColIdx) = Option.none →
        processRows cfg (r :: rest) st = st) ∧
      (∀ (r : Nat) (rest : List Nat) (st : LoopState),
        (get_non_empty_value (cfg.ws.cellAt r cfg.containerColIdx)).isNone = false →
        processRows cfg (r :: rest) st = processRows cfg rest (acceptState cfg r st))) := by
  refine ⟨convertWith_unitlist_nofilter headers ds ws path vf hout hin, ?_⟩
  intro cfg hset
  unfold setupCfg at hset
  dsimp only at hset
  rw [hout, hin] at hset
  revert hset
  cases hcc : lookupIdx (build_col_indices FileFormat.UNITLIST headers)
      (container_col_name FileFormat.UNITLIST (build_col_indices FileFormat.UNITLIST headers)) with
  | none => intro hset; exact absurd hset (by simp)
  | some cci =>
    intro hset
    simp only [Option.orElse, ite_self, truthyFilters, Bool.and_false,
      Bool.false_eq_true, if_false, Option.some.injEq] at hset
    subst hset
    refine ⟨rfl, ?_, ?_⟩
    · intro r rest st hnone
      simp only [processRows, hnone, Option.isNone_none, if_true]
      rfl
    · intro r rest st hsome
      rw [processRows_cons_decision _ r rest st hsome]
      rfl

/-- The worksheet of the C10 instantiation: a UNITLIST source with only a
Unit column, containers A1, blank, A2. -/
def noVoyageColsWs : Worksheet := ⟨[[.str "Unit"], [.str "A1"], [.str ""], [.str "A2"]]⟩

/-- Concrete instantiation of C10: with voyage filter V1 supplied and no
voyage columns found, the run equals the unfiltered run. -/
theorem unitlist_voyage_filter_silently_ignored_witness :
    convertWith .UNITLIST [.str "Unit"] 2 noVoyageColsWs "o" (some ["V1"]) Option.none =
      convertWith .UNITLIST [.str "Unit"] 2 noVoyageColsWs "o" Option.none Option.none :=
  (unitlist_voyage_filter_silently_ignored [.str "Unit"] 2 noVoyageColsWs "o"
    (some ["V1"]) (by decide) (by decide)).1

/-! ### C3 — the seal processing pipeline -/

/-- Symmetry of the derived boolean equality on cell values. -/
theorem cellValue_beq_comm (x y : CellValue) : (x == y) = (y == x) := by
  by_cases h : x = y
  · subst h; rfl
  · rw [beq_eq_false_iff_ne.mpr h, beq_eq_false_iff_ne.mpr (Ne.symm h)]

theorem listHas_append (l1 l2 : List CellValue) (v : CellValue) :
    listHas (l1 ++ l2) v = (listHas l1 v || listHas l2 v) := by
  induction l1 with
  | nil => rfl
  | cons a t ih => simp [listHas, ih, Bool.or_assoc]

/-- The specification's slash rule: for the RODMAN, RODMAN_CONVERTED and
UNITLIST formats a value containing "/" is truncated to the trimmed
substring before the first "/", and discarded if this yields the empty
string; other values and formats pass through unchanged. -/
def seal_spec_truncate (f : FileFormat) (v0 : CellValue) : Option CellValue :=
  if slashFormat f && pyInSub "/" (pyStr v0) then
    let t := pyStrip (pySplitSlashHead (pyStr v0))
    if t == "" then Option.none else some (CellValue.str t)
  else some v0

/-- The specification's deduplication: keep the first occurrence of each
distinct value, in order. -/
def dedupFirst : List CellValue → List CellValue
  | [] => []
  | x :: t => x :: (dedupFirst t).filter (fun b => !(b == x))

/-- The specification's seal list for a row: normalize the collected
values, apply the slash rule, deduplicate keeping first occurrences. -/
def seal_spec_pipeline (f : FileFormat) (raws : List CellValue) : List CellValue :=
  dedupFirst ((raws.filterMap get_non_empty_value).filterMap (seal_spec_truncate f))

theorem filterMap_filterMap' {α β γ : Type} (f : α → Option β) (g : β → Option γ)
    (l : List α) :
    (l.filterMap f).filterMap g = l.filterMap (fun a => (f a).bind g) := by
  induction l with
  | nil => rfl
  | cons a t ih =>
    cases hf : f a with
    | none => simp [List.filterMap_cons, hf, ih]
    | some b =>
      cases hg : g b with
      | none => simp [List.filterMap_cons, hf, hg, ih]
      | some c => simp [List.filterMap_cons, hf, hg, ih]

theorem collect_go (f : FileFormat) (raws : List CellValue) :
    ∀ acc : List CellValue,
      raws.foldl (collectStep f) acc =
        acc ++ (dedupFirst (raws.filterMap
            (fun raw => (get_non_empty_value raw).bind (seal_spec_truncate f)))).filter
          (fun b => !(listHas acc b)) := by
  induction raws with
  | nil => intro acc; simp [dedupFirst]
  | cons raw t ih =>
    intro acc
    simp only [List.foldl_cons, List.filterMap_cons]
    cases hn : get_non_empty_value raw with
    | none =>
      have hstep : collectStep f acc raw = acc := by
        simp [collectStep, hn]
      rw [hstep]
      exact ih acc
    | some v0 =>
      have htr := pyTruthy_of_normalized hn
      have hcond : (pyTruthy v0 && pyInSub "/" (pyStr v0) && slashFormat f)
          = (slashFormat f && pyInSub "/" (pyStr v0)) := by
        rw [htr]
        cases pyInSub "/" (pyStr v0) <;> cases slashFormat f <;> rfl
      have hstep : collectStep f acc raw =
          (match seal_spec_truncate f v0 with
           | Option.none => acc
           | some v => if listHas acc v then acc else acc ++ [v]) := by
        simp only [collectStep, hn, hcond, seal_spec_truncate]
      rw [hstep, Option.some_bind]
      cases htc : seal_spec_truncate f v0 with
      | none =>
        rw [ih acc]
      | some v =>
        simp only [dedupFirst]
        by_cases hmem : listHas acc v = true
        · rw [if_pos hmem, ih acc]
          congr 1
          rw [List.filter_cons_of_neg (by simp [hmem]), List.filter_filter]
          apply List.filter_congr
          intro a _
          by_cases hav : a = v
          · subst hav
            simp [hmem]
          · simp [beq_eq_false_iff_ne.mpr hav]
        · rw [if_neg hmem, ih (acc ++ [v]),
            List.filter_cons_of_pos (by simp [Bool.not_eq_true] at hmem; simp [hmem])]
          rw [show (acc ++ [v]) ++ ((dedupFirst (List.filterMap
              (fun raw => (get_non_empty_value raw).bind (seal_spec_truncate f)) t)).filter
              (fun b => !(listHas (acc ++ [v]) b)))
            = acc ++ (v :: ((dedupFirst (List.filterMap
              (fun raw => (get_non_empty_value raw).bind (seal_spec_truncate f)) t)).filter
              (fun b => !(listHas (acc ++ [v]) b)))) from by simp]
          congr 2
          rw [List.filter_filter]
          apply List.filter_congr
          intro a _
          rw [listHas_append]
          simp only [listHas, Bool.or_false]
          rw [cellValue_beq_comm v a]
          cases listHas acc a <;> cases (a == v) <;> rfl

theorem collectSeals_eq_spec (f : FileFormat) (raws : List CellValue) :
    collectSeals f raws = seal_spec_pipeline f raws := by
  unfold collectSeals seal_spec_pipeline
  rw [collect_go f raws [], filterMap_filterMap']
  rw [show (fun b => !(listHas [] b)) = (fun _ : CellValue => true) from by
    funext b; rfl]
  rw [List.filter_true, List.nil_append]

/-- The Seal 5 overflow chain: each further value is appended to the base
string joined with the literal separator. -/
def joinSealTail (base : String) (rest : List CellValue) : String :=
  rest.foldl (fun s v => s ++ "  ;  " ++ pyStr v) base

/-- The current string form of the Seal 5 cell as Python interpolates it. -/
def seal5Str (o : OutRow) : String :=
  match o.seal5 with
  | some c => pyStr c
  | Option.none => "None"

theorem writeSeals_tail (rest : List CellValue) : ∀ (i : Nat) (out : OutRow), 5 ≤ i →
    (List.enumFrom i rest).foldl writeSealStep out =
      (match rest with
       | [] => out
       | _ => { out with seal5 := some (.str (joinSealTail (seal5Str out) rest)) }) := by
  induction rest with
  | nil => intro i out _; rfl
  | cons v rest' ih =>
    intro i out h
    have h0 : ¬(i = 0) := by omega
    have h1 : ¬(i = 1) := by omega
    have h2 : ¬(i = 2) := by omega
    have h3 : ¬(i = 3) := by omega
    have h4 : ¬(i = 4) := by omega
    show (List.enumFrom (i + 1) rest').foldl writeSealStep (writeSealStep out (i, v)) = _
    rw [show writeSealStep out (i, v) =
        { out with seal5 := some (.str (seal5Str out ++ "  ;  " ++ pyStr v)) } from by
      simp [writeSealStep, h0, h1, h2, h3, h4, seal5Str]]
    rw [ih (i + 1) _ (by omega)]
    cases rest' with
    | nil => rfl
    | cons w rest'' => rfl

theorem writeSeals_packing (L : List CellValue) (out : OutRow)
    (h1 : out.seal1 = Option.none) (h2 : out.seal2 = Option.none)
    (h3 : out.seal3 = Option.none) (h4 : out.seal4 = Option.none)
    (h5 : out.seal5 = Option.none) :
    (writeSeals L out).seal1 = L.get? 0 ∧
    (writeSeals L out).seal2 = L.get? 1 ∧
    (writeSeals L out).seal3 = L.get? 2 ∧
    (writeSeals L out).seal4 = L.get? 3 ∧
    (writeSeals L out).seal5 =
      (match L.drop 4 with
       | [] => Option.none
       | [v] => some v
       | v :: rest => some (.str (joinSealTail (pyStr v) rest))) := by
  rcases L with _ | ⟨a, _ | ⟨b, _ | ⟨c, _ | ⟨d, _ | ⟨e, rest⟩⟩⟩⟩⟩
  · exact ⟨h1, h2, h3, h4, h5⟩
  · exact ⟨rfl, h2, h3, h4, h5⟩
  · exact ⟨rfl, rfl, h3, h4, h5⟩
  · exact ⟨rfl, rfl, rfl, h4, h5⟩
  · exact ⟨rfl, rfl, rfl, rfl, h5⟩
  · have hw : writeSeals (a :: b :: c :: d :: e :: rest) out =
        (List.enumFrom 5 rest).foldl writeSealStep
          ⟨out.container, out.pol, out.pod, out.type, out.slot,
           some a, some b, some c, some d, some e⟩ := rfl
    rw [hw, writeSeals_tail rest 5 _ (Nat.le_refl 5)]
    cases rest with
    | nil => exact ⟨rfl, rfl, rfl, rfl, rfl⟩
    | cons w rest' => exact ⟨rfl, rfl, rfl, rfl, rfl⟩

/-- C3: for every accepted row, seal processing equals the reference
pipeline: the collected values of the present seal columns are normalized,
slash-truncated for RODMAN / RODMAN_CONVERTED / UNITLIST (a value
truncating to the empty string is discarded), and deduplicated by exact
value keeping the first occurrence in order; items at positions 0-3 are
written to Seal 1..Seal 4, the item at position 4 to Seal 5, and every
later item is appended to the Seal 5 content joined with the literal
separator. -/
theorem seal_processing_pipeline (f : FileFormat) (raws : List CellValue) (out : OutRow)
    (h1 : out.seal1 = Option.none) (h2 : out.seal2 = Option.none)
    (h3 : out.seal3 = Option.none) (h4 : out.seal4 = Option.none)
    (h5 : out.seal5 = Option.none) :
    collectSeals f raws = seal_spec_pipeline f raws ∧
    (writeSeals (collectSeals f raws) out).seal1 = (seal_spec_pipeline f raws).get? 0 ∧
    (writeSeals (collectSeals f raws) out).seal2 = (seal_spec_pipeline f raws).get? 1 ∧
    (writeSeals (collectSeals f raws) out).seal3 = (seal_spec_pipeline f raws).get? 2 ∧
    (writeSeals (collectSeals f raws) out).seal4 = (seal_spec_pipeline f raws).get? 3 ∧
    (writeSeals (collectSeals f raws) out).seal5 =
      (match (seal_spec_pipeline f raws).drop 4 with
       | [] => Option.none
       | [v] => some v
       | v :: rest => some (.str (joinSealTail (pyStr v) rest))) := by
  have he := collectSeals_eq_spec f raws
  have hp := writeSeals_packing (collectSeals f raws) out h1 h2 h3 h4 h5
  refine ⟨he, ?_, ?_, ?_, ?_, ?_⟩
  · exact hp.1.trans (by rw [he])
  · exact hp.2.1.trans (by rw [he])
  · exact hp.2.2.1.trans (by rw [he])
  · exact hp.2.2.2.1.trans (by rw [he])
  · exact hp.2.2.2.2.trans (by rw [he])

/-- Concrete instantiation of C3: six distinct seal values fill
Seal 1..Seal 4 individually and Seal 5 holds "value5  ;  value6". -/
theorem seal_processing_pipeline_witness :
    (writeSeals (collectSeals .GATE_IN
        [.str "value1", .str "value2", .str "value3", .str "value4",
         .str "value5", .str "value6"]) emptyOut).seal5 =
      some (.str "value5  ;  value6") ∧
    (writeSeals (collectSeals .GATE_IN
        [.str "value1", .str "value2", .str "value3", .str "value4",
         .str "value5", .str "value6"]) emptyOut).seal1 = some (.str "value1") := by
  have h := seal_processing_pipeline .GATE_IN
    [.str "value1", .str "value2", .str "value3", .str "value4",
     .str "value5", .str "value6"] emptyOut rfl rfl rfl rfl rfl
  refine ⟨?_, ?_⟩
  · rw [h.2.2.2.2.2]
    decide
  · rw [h.2.1]
    decide
